import Mathlib

/-
  Verification of the multi-agent pursuit/evasion game
  (Operation-Resource-Shield-Game).

  Shallow embedding of the Python sources:
    src/src/communication/blackboard.py   (Message, Blackboard)
    src/src/environment/resource.py       (Resource, ResourceManager)
    src/src/environment/base_camp.py      (BaseCamp, ThiefHideout)
    src/src/game_engine.py                (per-tick orchestration, win checks)
    src/src/agents/base_agent.py          (movement, steering, stuck escape)
    src/src/utils/helpers.py              (geometry utilities)
    src/config/game_config.py             (constants)

  Modelling conventions:
  * Python floats are idealised as real numbers; wall-clock timestamps
    (datetime.now) as rational "seconds".
  * Python mutates Message / Resource objects in place; here every
    operation returns the updated store (and, where the caller keeps a
    reference to a mutated object, the updated object as well).
  * random.uniform / random.random outcomes and geometric side conditions
    decided elsewhere in the engine enter as explicit oracle parameters,
    so every theorem quantifies over all possible outcomes.
-/

namespace OpShield

/-! ## Definitions: blackboard, resource pool, engine tick and agent loop -/

/-- A message on the blackboard.  `content` is an opaque payload (the
blackboard never inspects it); `timestamp` is the creation time in
seconds; `read` is the single read flag stored on the object. -/
structure Message where
  sender : String
  recipient : String
  message_type : String
  content : String
  priority : Int
  timestamp : ℚ
  read : Bool
deriving DecidableEq

/-- One alert entry (Blackboard.post_alert dictionaries). -/
structure Alert where
  alert_type : String
  content : String
  severity : String
  timestamp : ℚ
deriving DecidableEq

/-- The blackboard state: knowledge map, live message queue, bounded
history, and alert list.  Python stores the same Message objects in
`messages` and `message_history`; field mutations are therefore mirrored
in both lists. -/
structure Blackboard where
  data : List (String × String)
  messages : List Message
  message_history : List Message
  alerts : List Alert
deriving DecidableEq

/-- The selection predicate of `Blackboard.get_messages`: addressed to
`recipient` or to the broadcast sentinel, and unread when
`unread_only` is set. -/
def msgSelector (recipient : String) (unread_only : Bool) (m : Message) : Bool :=
  (m.recipient == recipient || m.recipient == "all") && (!unread_only || !m.read)

/-- `Blackboard.send_message`: append to the live queue and the history. -/
def send_message (bb : Blackboard) (m : Message) : Blackboard :=
  { bb with messages := bb.messages ++ [m],
            message_history := bb.message_history ++ [m] }

/-- `Blackboard.get_messages`: select the matching messages, then mark
each of them read.  The marking mutates the shared objects, so it is
reflected in both the live queue and the history. -/
def get_messages (bb : Blackboard) (recipient : String) (unread_only : Bool) :
    List Message × Blackboard :=
  let selected := bb.messages.filter (msgSelector recipient unread_only)
  let markRead := fun m =>
    if msgSelector recipient unread_only m then { m with read := true } else m
  (selected,
   { bb with messages := bb.messages.map markRead,
             message_history := bb.message_history.map markRead })

/-- `Blackboard.clear_old_messages`: keep exactly the queued messages
strictly younger than `max_age_seconds`; nothing else is touched. -/
def clear_old_messages (bb : Blackboard) (current_time max_age_seconds : ℚ) :
    Blackboard :=
  { bb with messages :=
      bb.messages.filter (fun m => decide (current_time - m.timestamp < max_age_seconds)) }

/-- The broadcast message used in the read-once scenario. -/
def mBroadcast : Message :=
  { sender := "agent_explorer_0", recipient := "all",
    message_type := "thief_sighted", content := "position",
    priority := 1, timestamp := 0, read := false }

/-- A blackboard holding a single unread broadcast message. -/
def bbBroadcast : Blackboard :=
  { data := [], messages := [mBroadcast],
    message_history := [mBroadcast], alerts := [] }

/-- A direct message whose age is exactly the purge threshold. -/
def mAtThreshold : Message :=
  { sender := "agent_strategist", recipient := "agent_attacker_0",
    message_type := "intercept_command", content := "target",
    priority := 1, timestamp := 0, read := false }

/-- A blackboard with the threshold-age message queued, plus nonempty
knowledge map, history and alert list. -/
def bbAging : Blackboard :=
  { data := [("base_status", "safe")], messages := [mAtThreshold],
    message_history := [mAtThreshold],
    alerts := [{ alert_type := "thief_sighting", content := "position",
                 severity := "warning", timestamp := 0 }] }

/-- A collectible resource.  Coordinates are float literals in the
source and enter only through equality of instances here, so rationals
suffice; `id` is the unique "resource_N" string. -/
structure Resource where
  x : ℚ
  y : ℚ
  id : String
  collected : Bool
deriving DecidableEq

/-- The resource manager state (drawing-related fields omitted). -/
structure ResourceManager where
  resources : List Resource
  resource_counter : Nat
  base_resources : Nat
  resources_collected : Nat
  spawn_timer : Nat
deriving DecidableEq

/-- `ResourceManager.collect_resource`.  Python mutates the passed
object (`resource.collected = True`) and removes it from the list by
identity; the triple returned here is (result, new manager state, the
caller's view of the resource object).  `List.erase` drops the first
occurrence, as `list.remove` does. -/
def collect_resource (rm : ResourceManager) (r : Resource) :
    Bool × ResourceManager × Resource :=
  if r ∈ rm.resources ∧ r.collected = false then
    (true,
     { rm with resources := rm.resources.erase r,
               resources_collected := rm.resources_collected + 1 },
     { r with collected := true })
  else
    (false, rm, r)

/-- Constants from src/config/game_config.py. -/
def RESOURCES_INITIAL_COUNT : Nat := 10

def RESOURCES_MAX_ON_MAP : Nat := 10

def PLAYER_CARRYING_CAPACITY : Nat := 3

def COLLECTOR_CARRYING_CAPACITY : Nat := 5

def WINNING_RESOURCES_FOR_THIEF : Nat := RESOURCES_INITIAL_COUNT

/-- Game status values (game_config GAME_STATE_*). -/
inductive GStatus where
  | running
  | player_win
  | agents_win
  | paused
deriving DecidableEq

/-- The resource buckets and control state of one engine tick.  `pool`
is the number of uncollected resources held by the ResourceManager
(collected ones are removed from its list), `base` is
BaseCamp.resources_stored, `collector_carrying` is the inventory of the
single spawned CollectorAgent, `player_carrying` the thief's inventory,
`hideout` ThiefHideout.secured_count, and `spawned` counts successful
post-initialisation spawns. -/
structure GState where
  pool : Nat
  base : Nat
  collector_carrying : Nat
  player_carrying : Nat
  hideout : Nat
  spawned : Nat
  spawn_timer : Nat
  game_state : GStatus
deriving DecidableEq

/-- Nondeterministic inputs of one tick: the spawn dice roll together
with a successful placement, the geometric predicates governing the
collector, and the player-interaction predicates (zone membership and
the interceptor capture test). -/
structure TickOracle where
  spawn_roll : Bool
  collector_at_base : Bool
  collector_collects : Bool
  player_in_base : Bool
  player_in_hideout : Bool
  captured : Bool
deriving DecidableEq

/-- `ResourceManager.update`: advance the spawn timer and spawn one
resource when the timer is past one second, the map is below the cap
and the dice roll (and placement search) succeeds. -/
def resource_update (s : GState) (roll : Bool) : GState :=
  let s1 := { s with spawn_timer := s.spawn_timer + 1 }
  if 60 < s1.spawn_timer ∧ s1.pool < RESOURCES_MAX_ON_MAP ∧ roll = true then
    { s1 with pool := s1.pool + 1, spawned := s1.spawned + 1, spawn_timer := 0 }
  else s1

/-- The bucket-relevant effect of `CollectorAgent.think`: inside the
base it delivers its whole inventory (`_deliver_resources`); away from
the base it may collect one pooled resource (`_collect_resource`
succeeding through `ResourceManager.collect_resource`) when below
capacity. -/
def collector_think (s : GState) (at_base collects : Bool) : GState :=
  if at_base = true then
    if 0 < s.collector_carrying then
      { s with base := s.base + s.collector_carrying, collector_carrying := 0 }
    else s
  else if collects = true ∧ s.collector_carrying < COLLECTOR_CARRYING_CAPACITY ∧
      1 ≤ s.pool then
    { s with pool := s.pool - 1,
             collector_carrying := s.collector_carrying + 1 }
  else s

/-- The theft branch of `GameEngine._check_player_interactions`: with
the player inside the base and below capacity, `steal_resources(1)`
always succeeds (adding one carried unit), after which
`BaseCamp.remove_resources(1)` decrements the store only when at least
one unit is present — its boolean result is ignored. -/
def steal_check (s : GState) (in_base : Bool) : GState :=
  if in_base = true ∧ s.player_carrying < PLAYER_CARRYING_CAPACITY then
    { s with player_carrying := s.player_carrying + 1,
             base := if 1 ≤ s.base then s.base - 1 else s.base }
  else s

/-- The hideout branch: `Player.secure_resources` moves the whole
carried inventory into the hideout when nonempty. -/
def secure_check (s : GState) (in_hideout : Bool) : GState :=
  if in_hideout = true ∧ 0 < s.player_carrying then
    { s with hideout := s.hideout + s.player_carrying, player_carrying := 0 }
  else s

/-- The capture branch: when an AttackerAgent's `check_thief_collision`
succeeds the engine sets the agents-win state. -/
def capture_check (s : GState) (captured : Bool) : GState :=
  if captured = true then { s with game_state := GStatus.agents_win } else s

/-- `GameEngine._check_player_interactions` (bucket and status part):
theft, then securing, then the capture test. -/
def check_player_interactions (s : GState) (o : TickOracle) : GState :=
  capture_check (secure_check (steal_check s o.player_in_base)
    o.player_in_hideout) o.captured

/-- `GameEngine._check_win_conditions`: an empty base or a full hideout
makes the thief win; both ifs run unconditionally, overwriting any
status set earlier in the same tick. -/
def check_win_conditions (s : GState) : GState :=
  let s1 := if s.base ≤ 0 then { s with game_state := GStatus.player_win } else s
  if WINNING_RESOURCES_FOR_THIEF ≤ s1.hideout then
    { s1 with game_state := GStatus.player_win }
  else s1

/-- One tick of `GameEngine.update`: gated on the running state; then
resource spawning, the collector's bucket actions, player interactions
and win-condition evaluation, in the engine's order.  (Player movement,
the other roles' thinking and the blackboard republish move no resource
units and are omitted.) -/
def tick (s : GState) (o : TickOracle) : GState :=
  if s.game_state = GStatus.running then
    check_win_conditions
      (check_player_interactions
        (collector_think (resource_update s o.spawn_roll)
          o.collector_at_base o.collector_collects) o)
  else s

/-- Run a sequence of ticks. -/
def run : GState → List TickOracle → GState
  | s, [] => s
  | s, o :: os => run (tick s o) os

/-- Total resource units across all buckets. -/
def totalUnits (s : GState) : Nat :=
  s.pool + s.base + s.collector_carrying + s.player_carrying + s.hideout

/-- The state `GameEngine._initialize_game` builds: a full base, `p0`
successfully placed initial pool resources (placement can fail, so `p0`
is left free), empty inventories, and a running game. -/
def initialState (p0 : Nat) : GState :=
  { pool := p0, base := RESOURCES_INITIAL_COUNT, collector_carrying := 0,
    player_carrying := 0, hideout := 0, spawned := 0, spawn_timer := 0,
    game_state := GStatus.running }

/-- Modelled from the spec (§4.4): terminal conditions evaluated in the
fixed order base-empty, hideout-full, capture; the first satisfied one
decides.  This is the comparison definition for Claim C3, written from
the spec's words rather than the source. -/
def spec_order_win_eval (g : GStatus) (captured : Bool) (base hideout : Nat) :
    GStatus :=
  if base ≤ 0 then GStatus.player_win
  else if WINNING_RESOURCES_FOR_THIEF ≤ hideout then GStatus.player_win
  else if captured = true then GStatus.agents_win
  else g

/-- A scripted pre-tick state: one resource left in the base, thief
inside the base and simultaneously satisfying the capture test. -/
def scriptedState : GState :=
  { pool := 0, base := 1, collector_carrying := 0, player_carrying := 0,
    hideout := 0, spawned := 0, spawn_timer := 0,
    game_state := GStatus.running }

/-- The oracle for the scripted tick: the theft empties the base on the
same tick on which the capture test succeeds. -/
def scriptedOracle : TickOracle :=
  { spawn_roll := false, collector_at_base := false,
    collector_collects := false, player_in_base := true,
    player_in_hideout := false, captured := true }

/-- The two per-agent calls of the orchestrator loop. -/
inductive Phase where
  | update
  | think
deriving DecidableEq

/-- The sequence of calls issued by the agent loop of
`GameEngine.update`: for each agent in file order, its `update` call
immediately followed by its `think` call. -/
def agentLoopTrace (agents : List String) : List (String × Phase) :=
  (agents.map (fun a => [(a, Phase.update), (a, Phase.think)])).flatten

/-- The ordering property asserted by the claim: every agent's
move/update call happens before any agent's think call. -/
def allUpdatesBeforeThinks (tr : List (String × Phase)) : Prop :=
  ∀ i j : Fin tr.length,
    (tr.get i).2 = Phase.update → (tr.get j).2 = Phase.think → i < j

instance (tr : List (String × Phase)) : Decidable (allUpdatesBeforeThinks tr) := by
  unfold allUpdatesBeforeThinks
  infer_instance

/-! ## Definitions: geometry, steering and stuck escape -/

noncomputable section

open scoped Classical

/-- A 2D position. -/
abbrev Pos := ℝ × ℝ

/-- helpers.distance: Euclidean distance between two points. -/
def distance (pos1 pos2 : Pos) : ℝ :=
  Real.sqrt ((pos1.1 - pos2.1) ^ 2 + (pos1.2 - pos2.2) ^ 2)

/-- helpers.direction: normalized direction vector, with the explicit
zero-distance guard of the source. -/
def direction (from_pos to_pos : Pos) : Pos :=
  let dx := to_pos.1 - from_pos.1
  let dy := to_pos.2 - from_pos.2
  let dist := distance from_pos to_pos
  if dist = 0 then (0, 0) else (dx / dist, dy / dist)

/-- helpers.move_towards: step from one position towards another at the
given speed. -/
def move_towards (from_pos to_pos : Pos) (speed : ℝ) : Pos :=
  ((from_pos.1 + (direction from_pos to_pos).1 * speed),
   (from_pos.2 + (direction from_pos to_pos).2 * speed))

/-- helpers.clamp. -/
def clamp (value min_val max_val : ℝ) : ℝ :=
  max min_val (min max_val value)

/-- helpers.clamp_position: clamp a position to the screen bounds. -/
def clamp_position (pos : Pos) (width height : ℝ) : Pos :=
  (clamp pos.1 0 width, clamp pos.2 0 height)

/-- Window size (game_config WINDOW_WIDTH / WINDOW_HEIGHT), as reals. -/
def WINDOW_WIDTH : ℝ := 1200

def WINDOW_HEIGHT : ℝ := 800

/-- Being inside the world bounds. -/
def in_bounds (p : Pos) : Prop :=
  0 ≤ p.1 ∧ p.1 ≤ WINDOW_WIDTH ∧ 0 ≤ p.2 ∧ p.2 ≤ WINDOW_HEIGHT

/-- An axis-aligned rectangular obstacle (src/src/environment/map.py). -/
structure Obstacle where
  x : ℝ
  y : ℝ
  width : ℝ
  height : ℝ

/-- Obstacle.contains_circle: the circle overlaps the rectangle when
the closest rectangle point lies strictly within the radius. -/
def Obstacle.contains_circle (obs : Obstacle) (cx cy radius : ℝ) : Prop :=
  let closest_x := max obs.x (min cx (obs.x + obs.width))
  let closest_y := max obs.y (min cy (obs.y + obs.height))
  distance (cx, cy) (closest_x, closest_y) < radius

/-- The movement-relevant state of a BaseAgent
(src/src/agents/base_agent.py): position, speed, collision radius
(`size`), current target and active flag. -/
structure AgentM where
  pos : Pos
  speed : ℝ
  size : ℝ
  target_position : Option Pos
  active : Bool

/-- BaseAgent._is_position_blocked: some obstacle overlaps the circle
of radius size + 20 around the position (an empty obstacle list blocks
nothing). -/
def is_position_blocked (a : AgentM) (p : Pos) (obstacles : List Obstacle) : Prop :=
  ∃ obs ∈ obstacles, obs.contains_circle p.1 p.2 (a.size + 20)

/-- The trigonometric primitives used by the steering code, abstracted:
every steering property proved below holds for arbitrary cos / sin /
atan2 values. -/
structure TrigOracle where
  cos : ℝ → ℝ
  sin : ℝ → ℝ
  atan2 : ℝ → ℝ → ℝ

/-- math.radians. -/
def radians (deg : ℝ) : ℝ :=
  deg * Real.pi / 180

/-- The second loop of BaseAgent._find_best_path: try angular
deviations from the target bearing at full speed, returning the first
collision-free clamped candidate. -/
def try_angle_offsets (a : AgentM) (trig : TrigOracle) (current : Pos)
    (angle_to_target : ℝ) (obstacles : List Obstacle) : List ℝ → Option Pos
  | [] => none
  | offset :: rest =>
    let test_angle := angle_to_target + radians offset
    let test_pos := clamp_position
      (current.1 + trig.cos test_angle * a.speed,
       current.2 + trig.sin test_angle * a.speed)
      WINDOW_WIDTH WINDOW_HEIGHT
    if is_position_blocked a test_pos obstacles then
      try_angle_offsets a trig current angle_to_target obstacles rest
    else some test_pos

/-- The third loop of BaseAgent._find_best_path: lateral strafe
deviations at 0.6 times the speed. -/
def try_strafe_offsets (a : AgentM) (trig : TrigOracle) (current : Pos)
    (angle_to_target : ℝ) (obstacles : List Obstacle) : List ℝ → Option Pos
  | [] => none
  | strafe_angle :: rest =>
    let test_angle := angle_to_target + radians strafe_angle
    let test_pos := clamp_position
      (current.1 + trig.cos test_angle * a.speed * 0.6,
       current.2 + trig.sin test_angle * a.speed * 0.6)
      WINDOW_WIDTH WINDOW_HEIGHT
    if is_position_blocked a test_pos obstacles then
      try_strafe_offsets a trig current angle_to_target obstacles rest
    else some test_pos

/-- The fourth loop of BaseAgent._find_best_path: backward retreat
along the reverse bearing at decreasing speed fractions. -/
def try_backward_retreat (a : AgentM) (trig : TrigOracle) (current : Pos)
    (angle_to_target : ℝ) (obstacles : List Obstacle) : List ℝ → Option Pos
  | [] => none
  | back_mult :: rest =>
    let backward_pos := clamp_position
      (current.1 - trig.cos angle_to_target * a.speed * back_mult,
       current.2 - trig.sin angle_to_target * a.speed * back_mult)
      WINDOW_WIDTH WINDOW_HEIGHT
    if is_position_blocked a backward_pos obstacles then
      try_backward_retreat a trig current angle_to_target obstacles rest
    else some backward_pos

/-- BaseAgent._find_best_path: straight ahead, then the angular loop,
then the strafe loop, then the backward loop, else stay in place. -/
def find_best_path (a : AgentM) (trig : TrigOracle) (current target : Pos)
    (obstacles : List Obstacle) : Pos :=
  let angle_to_target := trig.atan2 (target.2 - current.2) (target.1 - current.1)
  let straight := clamp_position
    (current.1 + trig.cos angle_to_target * a.speed,
     current.2 + trig.sin angle_to_target * a.speed)
    WINDOW_WIDTH WINDOW_HEIGHT
  if ¬ is_position_blocked a straight obstacles then straight
  else
    match try_angle_offsets a trig current angle_to_target obstacles
        [15, -15, 30, -30, 45, -45, 60, -60, 75, -75, 90, -90] with
    | some p => p
    | none =>
      match try_strafe_offsets a trig current angle_to_target obstacles
          [120, -120, 135, -135, 150, -150] with
      | some p => p
      | none =>
        match try_backward_retreat a trig current angle_to_target obstacles
            [0.6, 0.4, 0.2] with
        | some p => p
        | none => current

/-- BaseAgent.move: snap onto the target when within speed + 5 of it
(clearing the target), otherwise take the straight step, falling back
to the avoidance search when the straight step is blocked.  Positions
are written through set_position, which clamps to the window. -/
def agent_move (a : AgentM) (trig : TrigOracle) (obstacles : List Obstacle) :
    AgentM :=
  match a.target_position with
  | none => a
  | some target =>
    if a.active = false then a
    else
      let current := a.pos
      let dist_to_target := distance current target
      if dist_to_target < a.speed + 5 then
        { a with pos := clamp_position target WINDOW_WIDTH WINDOW_HEIGHT,
                 target_position := none }
      else
        let desired_pos := move_towards current target a.speed
        if is_position_blocked a desired_pos obstacles then
          { a with pos := (clamp_position
              (find_best_path a trig current target obstacles)
              WINDOW_WIDTH WINDOW_HEIGHT) }
        else
          { a with pos := clamp_position desired_pos WINDOW_WIDTH WINDOW_HEIGHT }

/-- Modelled from the spec (§4.2 avoidance search): the candidate
positions in the claimed strict priority order — straight ahead at full
speed, angular deviations plus and minus 15 to 90 degrees at full
speed, strafe deviations plus and minus 120 to 150 degrees at 0.6
speed, backward retreat at 0.6, 0.4, 0.2 speed — each clamped to the
window.  This is the comparison definition for Claim C6, written from
the claim's words. -/
def spec_avoidance_candidates (a : AgentM) (trig : TrigOracle)
    (current target : Pos) : List Pos :=
  let angle_to_target := trig.atan2 (target.2 - current.2) (target.1 - current.1)
  clamp_position
      (current.1 + trig.cos angle_to_target * a.speed,
       current.2 + trig.sin angle_to_target * a.speed)
      WINDOW_WIDTH WINDOW_HEIGHT ::
  (([15, -15, 30, -30, 45, -45, 60, -60, 75, -75, 90, -90].map fun offset =>
      clamp_position
        (current.1 + trig.cos (angle_to_target + radians offset) * a.speed,
         current.2 + trig.sin (angle_to_target + radians offset) * a.speed)
        WINDOW_WIDTH WINDOW_HEIGHT) ++
   (([120, -120, 135, -135, 150, -150].map fun strafe_angle =>
      clamp_position
        (current.1 + trig.cos (angle_to_target + radians strafe_angle) * a.speed * 0.6,
         current.2 + trig.sin (angle_to_target + radians strafe_angle) * a.speed * 0.6)
        WINDOW_WIDTH WINDOW_HEIGHT) ++
    ([0.6, 0.4, 0.2].map fun back_mult =>
      clamp_position
        (current.1 - trig.cos angle_to_target * a.speed * back_mult,
         current.2 - trig.sin angle_to_target * a.speed * back_mult)
        WINDOW_WIDTH WINDOW_HEIGHT)))

/-- The first collision-free entry of a candidate list. -/
def first_free (a : AgentM) (obstacles : List Obstacle) : List Pos → Option Pos
  | [] => none
  | p :: ps =>
    if is_position_blocked a p obstacles then first_free a obstacles ps
    else some p

/-- A trig oracle instance used in concrete scenarios. -/
def trigZero : TrigOracle :=
  { cos := fun _ => 0, sin := fun _ => 0, atan2 := fun _ _ => 0 }

/-- An agent three units from its target (well within speed + 5). -/
def snapAgent : AgentM :=
  { pos := (100, 100), speed := 1.5, size := 12,
    target_position := some (103, 100), active := true }

/-- An agent exactly speed + 5 = 6.5 units from its target. -/
def boundaryAgent : AgentM :=
  { pos := (100, 100), speed := 1.5, size := 12,
    target_position := some (106.5, 100), active := true }

/-- The stuck-detection state of a BaseAgent. -/
structure StuckState where
  pos : Pos
  last_positions : List Pos
  target_position : Option Pos
  stuck_counter : Nat

/-- The history after appending the current position and trimming to
30 samples (`pop(0)` when the length exceeds 30). -/
def updated_history (a : StuckState) : List Pos :=
  let hist := a.last_positions ++ [a.pos]
  if 30 < hist.length then hist.drop 1 else hist

/-- The stuck counter after the displacement check: with a full
30-sample window, increment when the window spans less than 8 units,
reset to zero otherwise; an unfilled window leaves the counter alone. -/
def updated_stuck_counter (a : StuckState) : Nat :=
  if 30 ≤ (updated_history a).length then
    if distance (updated_history a).headI a.pos < 8 then a.stuck_counter + 1
    else 0
  else a.stuck_counter

/-- BaseAgent._escape_if_stuck. -/
def escape_if_stuck (a : StuckState) (c s : ℝ) : StuckState :=
  if 10 < updated_stuck_counter a then
    { a with last_positions := updated_history a,
             stuck_counter := 0,
             target_position := some (clamp_position
               (a.pos.1 + c * 200, a.pos.2 + s * 200)
               WINDOW_WIDTH WINDOW_HEIGHT) }
  else
    { a with last_positions := updated_history a,
             stuck_counter := updated_stuck_counter a }

end

/-! ## Theorems: blackboard, resource pool, engine and agent loop -/

/-! ### Blackboard lemmas -/

theorem mem_get_messages_fst {bb : Blackboard} {r : String} {uo : Bool} {m : Message}
    (h : m ∈ (get_messages bb r uo).1) :
    m ∈ bb.messages ∧ msgSelector r uo m = true := by
  simpa [get_messages, List.mem_filter] using h

theorem mem_get_messages_snd {bb : Blackboard} {r : String} {uo : Bool} {m : Message}
    (h : m ∈ (get_messages bb r uo).2.messages) :
    ∃ m0 ∈ bb.messages,
      m = if msgSelector r uo m0 then { m0 with read := true } else m0 := by
  simp only [get_messages, List.mem_map] at h
  obtain ⟨m0, hm0, hEq⟩ := h
  exact ⟨m0, hm0, hEq.symm⟩

theorem msgSelector_unread {r : String} {m : Message}
    (h : msgSelector r true m = true) : m.read = false := by
  simp only [msgSelector, Bool.and_eq_true, Bool.or_eq_true] at h
  simpa using h.2

theorem msgSelector_recipient {r : String} {m : Message}
    (h : msgSelector r true m = true) :
    m.recipient = r ∨ m.recipient = "all" := by
  simp only [msgSelector, Bool.and_eq_true, Bool.or_eq_true, beq_iff_eq] at h
  exact h.1

/-- Claim C1 (counterexample).  The claim states that a broadcast fetched
as unread by recipient A is still returned to a different recipient B on
B's first fetch.  In the code the read flag is a single per-message
boolean, so after A's fetch the broadcast is read for everyone: B's
first unread fetch returns the empty list. -/
theorem get_messages_broadcast_not_redelivered :
    (get_messages bbBroadcast "agent_attacker_0" true).1 = [mBroadcast] ∧
    (get_messages
        ((get_messages bbBroadcast "agent_attacker_0" true).2)
        "agent_collector_0" true).1 = [] := by
  decide

/-- Claim C1 (amended).  Message delivery is read-once globally, not
per recipient: a message returned by an unread fetch is never returned
by a later unread fetch, whether by the same recipient or a different
one; moreover after any unread fetch no unread broadcast remains, so a
later unread fetch by any recipient returns no broadcast at all. -/
theorem get_messages_read_once_global (bb : Blackboard) (a b : String) :
    (∀ m ∈ (get_messages bb a true).1,
        m ∉ (get_messages ((get_messages bb a true).2) a true).1) ∧
    (∀ m ∈ (get_messages bb a true).1,
        m ∉ (get_messages ((get_messages bb a true).2) b true).1) ∧
    (∀ m ∈ (get_messages ((get_messages bb a true).2) b true).1,
        m.recipient ≠ "all") := by
  have key : ∀ (r : String), ∀ m ∈ (get_messages ((get_messages bb a true).2) r true).1,
      msgSelector a true m = false := by
    intro r m hm
    have h1 := mem_get_messages_fst hm
    obtain ⟨m0, hm0, hform⟩ := mem_get_messages_snd h1.1
    have hunread : m.read = false := msgSelector_unread h1.2
    by_cases hsel : msgSelector a true m0 = true
    · rw [hsel] at hform
      simp only [if_true] at hform
      rw [hform] at hunread
      simp at hunread
    · have : m = m0 := by
        rw [hform]
        simp [Bool.not_eq_true] at hsel
        simp [hsel]
      rw [this]
      simpa using hsel
  refine ⟨?_, ?_, ?_⟩
  · intro m hm hmem
    have hsel := (mem_get_messages_fst hm).2
    have := key a m hmem
    rw [hsel] at this
    exact Bool.true_eq_false.mp this
  · intro m hm hmem
    have hsel := (mem_get_messages_fst hm).2
    have := key b m hmem
    rw [hsel] at this
    exact Bool.true_eq_false.mp this
  · intro m hm hall
    have hfalse := key b m hm
    have hunread : m.read = false := msgSelector_unread (mem_get_messages_fst hm).2
    simp [msgSelector, hall, hunread] at hfalse

/-- Claim C1 witness: the amended read-once property applied to the
concrete broadcast scenario. -/
theorem get_messages_read_once_global_witness :
    mBroadcast ∈ (get_messages bbBroadcast "agent_attacker_0" true).1 ∧
    mBroadcast ∉ (get_messages
        ((get_messages bbBroadcast "agent_attacker_0" true).2)
        "agent_collector_0" true).1 :=
  ⟨by decide,
   (get_messages_read_once_global bbBroadcast "agent_attacker_0"
      "agent_collector_0").2.1 mBroadcast (by decide)⟩

/-- Claim C9 (counterexample).  The claim says clear_old_messages
removes exactly the messages older than the maximum age.  A message
whose age equals the maximum exactly is not older than it, yet the code
removes it (it keeps only ages strictly below the maximum). -/
theorem clear_old_messages_boundary :
    (clear_old_messages bbAging 300 300).messages = [] ∧
    ¬ ((300 : ℚ) - mAtThreshold.timestamp > 300) := by
  constructor
  · simp [clear_old_messages, bbAging, mAtThreshold, List.filter]
  · simp [mAtThreshold]

/-- Claim C9 (amended).  clear_old_messages keeps exactly the queued
messages strictly younger than the maximum age (equivalently, removes
exactly those whose age is at least the maximum), and leaves the
message history, the knowledge map and the alert list unchanged. -/
theorem clear_old_messages_spec (bb : Blackboard) (now max_age : ℚ) :
    (∀ m : Message,
        m ∈ (clear_old_messages bb now max_age).messages ↔
          m ∈ bb.messages ∧ now - m.timestamp < max_age) ∧
    (clear_old_messages bb now max_age).message_history = bb.message_history ∧
    (clear_old_messages bb now max_age).data = bb.data ∧
    (clear_old_messages bb now max_age).alerts = bb.alerts := by
  refine ⟨?_, rfl, rfl, rfl⟩
  intro m
  simp [clear_old_messages, List.mem_filter]

/-- Claim C4: collection is exactly-once.  A first collect of an
uncollected pooled resource succeeds, removes it from the pool and
increments the collected counter; a second collect attempt on the same
(now marked) instance returns false and changes nothing. -/
theorem collect_resource_exactly_once (rm : ResourceManager) (r : Resource)
    (hmem : r ∈ rm.resources) (hnew : r.collected = false) :
    (collect_resource rm r).1 = true ∧
    (collect_resource rm r).2.1.resources = rm.resources.erase r ∧
    (collect_resource rm r).2.1.resources_collected = rm.resources_collected + 1 ∧
    (collect_resource (collect_resource rm r).2.1 (collect_resource rm r).2.2).1
      = false ∧
    (collect_resource (collect_resource rm r).2.1 (collect_resource rm r).2.2).2.1
      = (collect_resource rm r).2.1 ∧
    (collect_resource (collect_resource rm r).2.1 (collect_resource rm r).2.2).2.2
      = (collect_resource rm r).2.2 := by
  have hfirst : collect_resource rm r =
      (true,
       { rm with resources := rm.resources.erase r,
                 resources_collected := rm.resources_collected + 1 },
       { r with collected := true }) := by
    simp [collect_resource, hmem, hnew]
  have hsecond :
      collect_resource (collect_resource rm r).2.1 (collect_resource rm r).2.2 =
        (false, (collect_resource rm r).2.1, (collect_resource rm r).2.2) := by
    rw [hfirst]
    simp [collect_resource]
  refine ⟨?_, ?_, ?_, ?_, ?_, ?_⟩
  · rw [hfirst]
  · rw [hfirst]
  · rw [hfirst]
  · rw [hsecond]
  · rw [hsecond]
  · rw [hsecond]

/-- Claim C4 witness: the exactly-once property at a concrete pool of
two resources. -/
theorem collect_resource_exactly_once_witness :
    let r0 : Resource := { x := 200, y := 300, id := "resource_0", collected := false }
    let r1 : Resource := { x := 640, y := 420, id := "resource_1", collected := false }
    let rm : ResourceManager :=
      { resources := [r0, r1], resource_counter := 2, base_resources := 10,
        resources_collected := 0, spawn_timer := 0 }
    (collect_resource rm r1).1 = true ∧
    (collect_resource rm r1).2.1.resources = [r0] ∧
    (collect_resource rm r1).2.1.resources_collected = 1 ∧
    (collect_resource (collect_resource rm r1).2.1 (collect_resource rm r1).2.2).1
      = false := by
  intro r0 r1 rm
  have h := collect_resource_exactly_once rm r1 (by decide) (by decide)
  refine ⟨h.1, ?_, h.2.2.1, h.2.2.2.1⟩
  rw [h.2.1]
  decide

/-! ### Conservation of resource units (Claim C2) -/

theorem resource_update_total (s : GState) (roll : Bool) :
    totalUnits (resource_update s roll) + s.spawned
      = totalUnits s + (resource_update s roll).spawned ∧
    (resource_update s roll).base = s.base ∧
    (resource_update s roll).game_state = s.game_state := by
  simp only [resource_update, totalUnits]
  split_ifs <;> simp <;> omega

theorem collector_think_total (s : GState) (a c : Bool) :
    totalUnits (collector_think s a c) = totalUnits s ∧
    (collector_think s a c).spawned = s.spawned ∧
    s.base ≤ (collector_think s a c).base ∧
    (collector_think s a c).game_state = s.game_state := by
  simp only [collector_think, totalUnits]
  split_ifs <;> simp <;> omega

theorem steal_check_total (s : GState) (b : Bool) (hb : 1 ≤ s.base) :
    totalUnits (steal_check s b) = totalUnits s ∧
    (steal_check s b).spawned = s.spawned ∧
    (steal_check s b).game_state = s.game_state := by
  simp only [steal_check, totalUnits]
  split_ifs <;> simp <;> omega

theorem secure_check_total (s : GState) (b : Bool) :
    totalUnits (secure_check s b) = totalUnits s ∧
    (secure_check s b).spawned = s.spawned ∧
    (secure_check s b).game_state = s.game_state := by
  simp only [secure_check, totalUnits]
  split_ifs <;> simp <;> omega

theorem capture_check_total (s : GState) (c : Bool) :
    totalUnits (capture_check s c) = totalUnits s ∧
    (capture_check s c).spawned = s.spawned := by
  simp only [capture_check, totalUnits]
  split_ifs <;> simp

theorem check_win_conditions_total (s : GState) :
    totalUnits (check_win_conditions s) = totalUnits s ∧
    (check_win_conditions s).spawned = s.spawned ∧
    ((check_win_conditions s).game_state = GStatus.running → 1 ≤ s.base) := by
  simp only [check_win_conditions, totalUnits]
  split_ifs <;> simp <;> omega

theorem check_win_conditions_base (s : GState) :
    (check_win_conditions s).base = s.base := by
  simp only [check_win_conditions]
  split_ifs <;> simp

theorem check_player_interactions_total (s : GState) (o : TickOracle)
    (hb : 1 ≤ s.base) :
    totalUnits (check_player_interactions s o) = totalUnits s ∧
    (check_player_interactions s o).spawned = s.spawned := by
  unfold check_player_interactions
  obtain ⟨h3a, h3b, h3c⟩ := steal_check_total s o.player_in_base hb
  obtain ⟨h4a, h4b, h4c⟩ :=
    secure_check_total (steal_check s o.player_in_base) o.player_in_hideout
  obtain ⟨h5a, h5b⟩ :=
    capture_check_total
      (secure_check (steal_check s o.player_in_base) o.player_in_hideout)
      o.captured
  omega

theorem tick_total (s : GState) (o : TickOracle)
    (hb : s.game_state = GStatus.running → 1 ≤ s.base) :
    totalUnits (tick s o) + s.spawned = totalUnits s + (tick s o).spawned ∧
    ((tick s o).game_state = GStatus.running → 1 ≤ (tick s o).base) := by
  unfold tick
  by_cases hrun : s.game_state = GStatus.running
  · rw [if_pos hrun]
    obtain ⟨h1a, h1b, h1c⟩ := resource_update_total s o.spawn_roll
    obtain ⟨h2a, h2b, h2c, h2d⟩ :=
      collector_think_total (resource_update s o.spawn_roll)
        o.collector_at_base o.collector_collects
    have hbase2 :
        1 ≤ (collector_think (resource_update s o.spawn_roll)
              o.collector_at_base o.collector_collects).base := by
      have := hb hrun
      omega
    obtain ⟨hia, hib⟩ :=
      check_player_interactions_total
        (collector_think (resource_update s o.spawn_roll)
          o.collector_at_base o.collector_collects) o hbase2
    obtain ⟨h6a, h6b, h6c⟩ :=
      check_win_conditions_total
        (check_player_interactions
          (collector_think (resource_update s o.spawn_roll)
            o.collector_at_base o.collector_collects) o)
    have h6d :=
      check_win_conditions_base
        (check_player_interactions
          (collector_think (resource_update s o.spawn_roll)
            o.collector_at_base o.collector_collects) o)
    refine ⟨by omega, fun hpost => ?_⟩
    have := h6c hpost
    omega
  · rw [if_neg hrun]
    exact ⟨rfl, hb⟩

theorem run_total (os : List TickOracle) (s : GState)
    (hb : s.game_state = GStatus.running → 1 ≤ s.base) :
    totalUnits (run s os) + s.spawned = totalUnits s + (run s os).spawned ∧
    ((run s os).game_state = GStatus.running → 1 ≤ (run s os).base) := by
  induction os generalizing s with
  | nil => exact ⟨rfl, hb⟩
  | cons o os ih =>
    have h1 := tick_total s o hb
    have h2 := ih (tick s o) h1.2
    unfold run
    exact ⟨by omega, h2.2⟩

/-- Claim C2: resource conservation.  Over any run of the engine from
the initial configuration, the pooled, base-stored, agent-carried,
player-carried and hideout-secured units always sum to the initial
total plus the number of resources spawned; stealing, collecting,
delivering and securing only move units between buckets. -/
theorem resource_conservation (p0 : Nat) (os : List TickOracle) :
    totalUnits (run (initialState p0) os)
      = totalUnits (initialState p0) + (run (initialState p0) os).spawned := by
  have h := run_total os (initialState p0)
    (by intro _; simp [initialState, RESOURCES_INITIAL_COUNT])
  have h0 : (initialState p0).spawned = 0 := rfl
  omega

theorem win_precedence :
    (∀ (s : GState) (captured : Bool),
        (check_win_conditions (capture_check s captured)).game_state
          = spec_order_win_eval s.game_state captured s.base s.hideout) ∧
    (tick scriptedState scriptedOracle).game_state = GStatus.player_win := by
  constructor
  · intro s captured
    simp only [check_win_conditions, capture_check, spec_order_win_eval]
    split_ifs <;> simp_all
  · decide

/-- Claim C5 (counterexample).  With the engine's first two agents, the
loop emits strategist-update, strategist-think, explorer-update,
explorer-think: the strategist's think call precedes the explorer's
update call, so not every update happens before every think. -/
theorem agent_loop_interleaves :
    ¬ allUpdatesBeforeThinks
        (agentLoopTrace ["agent_strategist", "agent_explorer_0"]) := by
  decide

/-- Claim C5 (amended).  The loop interleaves the two phases per agent:
the k-th agent's update call sits at trace position 2k and its think
call at position 2k+1, so each agent's own update precedes its own
think, but later agents' updates come after earlier agents' thinks. -/
theorem agent_loop_update_then_think (agents : List String) (k : Nat)
    (hk : k < agents.length) :
    (agentLoopTrace agents).get? (2 * k) = some (agents.get ⟨k, hk⟩, Phase.update) ∧
    (agentLoopTrace agents).get? (2 * k + 1) = some (agents.get ⟨k, hk⟩, Phase.think) := by
  induction agents generalizing k with
  | nil => exact absurd hk (by simp)
  | cons a rest ih =>
    cases k with
    | zero => exact ⟨rfl, rfl⟩
    | succ n =>
      have hn : n < rest.length := by simpa using hk
      have := ih n hn
      have h2 : 2 * (n + 1) = (2 * n) + 2 := by ring
      simp only [agentLoopTrace, List.map_cons, List.flatten] at this ⊢
      rw [h2]
      simpa using this

/-- Claim C5 witness: the per-agent ordering at the engine's concrete
agent roster. -/
theorem agent_loop_update_then_think_witness :
    (agentLoopTrace ["agent_strategist", "agent_explorer_0",
        "agent_collector_0", "agent_attacker_0"]).get? 4
      = some ("agent_collector_0", Phase.update) ∧
    (agentLoopTrace ["agent_strategist", "agent_explorer_0",
        "agent_collector_0", "agent_attacker_0"]).get? 5
      = some ("agent_collector_0", Phase.think) :=
  agent_loop_update_then_think
    ["agent_strategist", "agent_explorer_0", "agent_collector_0",
     "agent_attacker_0"] 2 (by decide)

/-! ## Theorems: geometry, steering and stuck escape -/

section

open scoped Classical

/-! ### Geometry lemmas and Claim C10 -/

theorem distance_self (p : Pos) : distance p p = 0 := by
  simp [distance]

/-- Claim C10: zero-distance safety.  For coincident positions the
direction helper returns the zero vector instead of dividing by zero,
and move_towards applied to coincident start and target returns the
start unchanged for every speed. -/
theorem direction_zero_distance_safe (p : Pos) (speed : ℝ) :
    direction p p = (0, 0) ∧ move_towards p p speed = p := by
  have hd : distance p p = 0 := distance_self p
  have hdir : direction p p = (0, 0) := by simp [direction, hd]
  refine ⟨hdir, ?_⟩
  simp [move_towards, hdir]

theorem clamp_position_in_bounds (p : Pos) :
    in_bounds (clamp_position p WINDOW_WIDTH WINDOW_HEIGHT) := by
  have hw : (0 : ℝ) ≤ WINDOW_WIDTH := by norm_num [WINDOW_WIDTH]
  have hh : (0 : ℝ) ≤ WINDOW_HEIGHT := by norm_num [WINDOW_HEIGHT]
  refine ⟨le_max_left _ _, ?_, le_max_left _ _, ?_⟩
  · exact max_le hw (min_le_left _ _)
  · exact max_le hh (min_le_left _ _)

/-! ### Avoidance-search priority order (Claim C6) -/

theorem try_angle_offsets_eq_first_free (a : AgentM) (trig : TrigOracle)
    (current : Pos) (θ : ℝ) (obstacles : List Obstacle) (offsets : List ℝ) :
    try_angle_offsets a trig current θ obstacles offsets =
      first_free a obstacles (offsets.map fun offset =>
        clamp_position
          (current.1 + trig.cos (θ + radians offset) * a.speed,
           current.2 + trig.sin (θ + radians offset) * a.speed)
          WINDOW_WIDTH WINDOW_HEIGHT) := by
  induction offsets with
  | nil => rfl
  | cons o rest ih =>
    simp only [try_angle_offsets, List.map_cons, first_free]
    split_ifs with h
    · exact ih
    · rfl

theorem try_strafe_offsets_eq_first_free (a : AgentM) (trig : TrigOracle)
    (current : Pos) (θ : ℝ) (obstacles : List Obstacle) (offsets : List ℝ) :
    try_strafe_offsets a trig current θ obstacles offsets =
      first_free a obstacles (offsets.map fun strafe_angle =>
        clamp_position
          (current.1 + trig.cos (θ + radians strafe_angle) * a.speed * 0.6,
           current.2 + trig.sin (θ + radians strafe_angle) * a.speed * 0.6)
          WINDOW_WIDTH WINDOW_HEIGHT) := by
  induction offsets with
  | nil => rfl
  | cons o rest ih =>
    simp only [try_strafe_offsets, List.map_cons, first_free]
    split_ifs with h
    · exact ih
    · rfl

theorem try_backward_retreat_eq_first_free (a : AgentM) (trig : TrigOracle)
    (current : Pos) (θ : ℝ) (obstacles : List Obstacle) (mults : List ℝ) :
    try_backward_retreat a trig current θ obstacles mults =
      first_free a obstacles (mults.map fun back_mult =>
        clamp_position
          (current.1 - trig.cos θ * a.speed * back_mult,
           current.2 - trig.sin θ * a.speed * back_mult)
          WINDOW_WIDTH WINDOW_HEIGHT) := by
  induction mults with
  | nil => rfl
  | cons o rest ih =>
    simp only [try_backward_retreat, List.map_cons, first_free]
    split_ifs with h
    · exact ih
    · rfl

theorem first_free_append (a : AgentM) (obstacles : List Obstacle)
    (l1 l2 : List Pos) :
    first_free a obstacles (l1 ++ l2) =
      match first_free a obstacles l1 with
      | some p => some p
      | none => first_free a obstacles l2 := by
  induction l1 with
  | nil => rfl
  | cons q ps ih =>
    simp only [List.cons_append, first_free]
    split_ifs with h
    · exact ih
    · rfl

theorem first_free_cons (a : AgentM) (obstacles : List Obstacle) (x : Pos)
    (l : List Pos) :
    first_free a obstacles (x :: l) =
      if is_position_blocked a x obstacles then first_free a obstacles l
      else some x := rfl

theorem first_free_some (a : AgentM) (obstacles : List Obstacle) :
    ∀ (l : List Pos) (p : Pos), first_free a obstacles l = some p →
      ¬ is_position_blocked a p obstacles ∧ p ∈ l := by
  intro l
  induction l with
  | nil => intro p h; cases h
  | cons q ps ih =>
    intro p h
    simp only [first_free] at h
    split_ifs at h with hq
    · obtain ⟨h1, h2⟩ := ih p h
      exact ⟨h1, List.mem_cons_of_mem _ h2⟩
    · cases h
      exact ⟨hq, List.mem_cons_self _ _⟩

theorem spec_candidates_in_bounds (a : AgentM) (trig : TrigOracle)
    (current target : Pos) :
    ∀ p ∈ spec_avoidance_candidates a trig current target, in_bounds p := by
  intro p hp
  simp only [spec_avoidance_candidates, List.mem_cons, List.mem_append,
    List.mem_map] at hp
  rcases hp with h | ⟨o, _, h⟩ | ⟨o, _, h⟩ | ⟨o, _, h⟩ <;>
    subst h <;> exact clamp_position_in_bounds _

/-- Claim C6: avoidance-search priority.  The steering routine returns
exactly the first collision-free candidate of the claimed priority list
(straight ahead at full speed, angular deviations plus/minus 15..90
degrees at full speed, strafes plus/minus 120..150 degrees at 0.6
speed, backward retreats at 0.6, 0.4, 0.2 speed), falling back to the
current position; and whatever it returns is either that stay-in-place
fallback or collision-free against the size + 20 buffer and inside the
world bounds. -/
theorem find_best_path_priority (a : AgentM) (trig : TrigOracle)
    (current target : Pos) (obstacles : List Obstacle) :
    find_best_path a trig current target obstacles
      = (first_free a obstacles
          (spec_avoidance_candidates a trig current target)).getD current ∧
    (find_best_path a trig current target obstacles = current ∨
      (¬ is_position_blocked a (find_best_path a trig current target obstacles)
          obstacles ∧
        in_bounds (find_best_path a trig current target obstacles))) := by
  have heq : find_best_path a trig current target obstacles
      = (first_free a obstacles
          (spec_avoidance_candidates a trig current target)).getD current := by
    simp only [find_best_path, spec_avoidance_candidates]
    rw [first_free_cons]
    by_cases hb : is_position_blocked a
        (clamp_position
          (current.1 + trig.cos
              (trig.atan2 (target.2 - current.2) (target.1 - current.1)) * a.speed,
           current.2 + trig.sin
              (trig.atan2 (target.2 - current.2) (target.1 - current.1)) * a.speed)
          WINDOW_WIDTH WINDOW_HEIGHT) obstacles
    · rw [if_neg (not_not_intro hb), if_pos hb, first_free_append,
        ← try_angle_offsets_eq_first_free]
      cases hA : try_angle_offsets a trig current
          (trig.atan2 (target.2 - current.2) (target.1 - current.1)) obstacles
          [15, -15, 30, -30, 45, -45, 60, -60, 75, -75, 90, -90] with
      | some p => rfl
      | none =>
        simp only
        rw [first_free_append, ← try_strafe_offsets_eq_first_free]
        cases hS : try_strafe_offsets a trig current
            (trig.atan2 (target.2 - current.2) (target.1 - current.1)) obstacles
            [120, -120, 135, -135, 150, -150] with
        | some p => rfl
        | none =>
          simp only
          rw [← try_backward_retreat_eq_first_free]
          cases hB : try_backward_retreat a trig current
              (trig.atan2 (target.2 - current.2) (target.1 - current.1)) obstacles
              [0.6, 0.4, 0.2] with
          | some p => rfl
          | none => rfl
    · rw [if_pos hb, if_neg hb]
      rfl
  refine ⟨heq, ?_⟩
  cases hf : first_free a obstacles
      (spec_avoidance_candidates a trig current target) with
  | none => left; rw [heq, hf]; rfl
  | some p =>
    right
    obtain ⟨h1, h2⟩ := first_free_some a obstacles _ p hf
    rw [heq, hf]
    exact ⟨h1, spec_candidates_in_bounds a trig current target p h2⟩

/-- Claim C7 (amended).  When the distance to the set target is
strictly below speed + 5 (the source tests `dist < speed + 5`, not
`≤`), move places the agent exactly on the target clamped to the world
bounds and clears the target; neither the obstacle list nor the
steering trigonometry plays any role in that case. -/
theorem move_snaps_within_tolerance (a : AgentM) (t : Pos)
    (trig trig2 : TrigOracle) (obstacles obstacles2 : List Obstacle)
    (htgt : a.target_position = some t) (hact : a.active = true)
    (hdist : distance a.pos t < a.speed + 5) :
    agent_move a trig obstacles =
      { a with pos := clamp_position t WINDOW_WIDTH WINDOW_HEIGHT,
               target_position := none } ∧
    agent_move a trig obstacles = agent_move a trig2 obstacles2 := by
  have hgen : ∀ (tr : TrigOracle) (obs : List Obstacle),
      agent_move a tr obs =
        { a with pos := clamp_position t WINDOW_WIDTH WINDOW_HEIGHT,
                 target_position := none } := by
    intro tr obs
    simp only [agent_move, htgt, hact]
    simp only [Bool.true_eq_false, if_false]
    rw [if_pos hdist]
  exact ⟨hgen trig obstacles, (hgen trig obstacles).trans (hgen trig2 obstacles2).symm⟩

/-- Claim C7 witness: the snap at a concrete agent. -/
theorem move_snaps_within_tolerance_witness :
    distance snapAgent.pos (103, 100) < snapAgent.speed + 5 ∧
    agent_move snapAgent trigZero [] =
      { snapAgent with
          pos := clamp_position (103, 100) WINDOW_WIDTH WINDOW_HEIGHT,
          target_position := none } := by
  have hd : distance snapAgent.pos ((103 : ℝ), (100 : ℝ)) = 3 := by
    simp only [snapAgent, distance]
    have h9 : ((100 : ℝ) - 103) ^ 2 + ((100 : ℝ) - 100) ^ 2 = 3 ^ 2 := by norm_num
    rw [h9, Real.sqrt_sq (by norm_num : (0 : ℝ) ≤ 3)]
  have hlt : distance snapAgent.pos ((103 : ℝ), (100 : ℝ)) < snapAgent.speed + 5 := by
    rw [hd]
    norm_num [snapAgent]
  exact ⟨hlt,
    (move_snaps_within_tolerance snapAgent (103, 100) trigZero trigZero [] []
      rfl rfl hlt).1⟩

theorem boundaryAgent_distance :
    distance boundaryAgent.pos ((106.5 : ℝ), (100 : ℝ)) = 6.5 := by
  simp only [boundaryAgent, distance]
  have h : ((100 : ℝ) - 106.5) ^ 2 + ((100 : ℝ) - 100) ^ 2 = 6.5 ^ 2 := by norm_num
  rw [h, Real.sqrt_sq (by norm_num : (0 : ℝ) ≤ 6.5)]

/-- Claim C7 (counterexample).  The claim asserts snapping whenever the
distance is at most speed + 5.  At distance exactly speed + 5 the code
takes the ordinary stepping branch instead: the agent ends up 1.5 units
along the bearing, and the target is not cleared. -/
theorem move_boundary_not_snapped :
    distance boundaryAgent.pos (106.5, 100) ≤ boundaryAgent.speed + 5 ∧
    (agent_move boundaryAgent trigZero []).target_position = some (106.5, 100) ∧
    (agent_move boundaryAgent trigZero []).pos = (101.5, 100) := by
  have hd := boundaryAgent_distance
  have hne : ¬ distance boundaryAgent.pos ((106.5 : ℝ), (100 : ℝ))
      < boundaryAgent.speed + 5 := by
    rw [hd]
    norm_num [boundaryAgent]
  have hdir : direction boundaryAgent.pos ((106.5 : ℝ), (100 : ℝ)) = (1, 0) := by
    simp only [direction]
    rw [if_neg (by rw [hd]; norm_num)]
    rw [hd]
    simp only [boundaryAgent]
    norm_num
  have hmv : move_towards boundaryAgent.pos ((106.5 : ℝ), (100 : ℝ))
      boundaryAgent.speed = (101.5, 100) := by
    simp only [move_towards]
    rw [hdir]
    simp only [boundaryAgent]
    norm_num
  refine ⟨by rw [hd]; norm_num [boundaryAgent], ?_⟩
  have hstep : agent_move boundaryAgent trigZero [] =
      { boundaryAgent with
          pos := clamp_position (101.5, 100) WINDOW_WIDTH WINDOW_HEIGHT } := by
    simp only [agent_move, boundaryAgent]
    simp only [Bool.true_eq_false, if_false]
    rw [if_neg (by simpa [boundaryAgent] using hne)]
    rw [show move_towards ((100 : ℝ), (100 : ℝ)) ((106.5 : ℝ), (100 : ℝ)) 1.5
          = ((101.5 : ℝ), (100 : ℝ)) by simpa [boundaryAgent] using hmv]
    rw [if_neg (by simp [is_position_blocked])]
  rw [hstep]
  constructor
  · simp [boundaryAgent]
  · simp only
    norm_num [clamp_position, clamp, WINDOW_WIDTH, WINDOW_HEIGHT]

theorem updated_history_motionless (p : Pos) (t : Option Pos) (k : Nat) :
    updated_history ⟨p, List.replicate 30 p, t, k⟩ = List.replicate 30 p := by
  simp only [updated_history]
  rw [show List.replicate 30 p ++ [p] = List.replicate 31 p from
    (List.replicate_succ' 30 p).symm]
  norm_num

theorem updated_stuck_counter_motionless (p : Pos) (t : Option Pos) (k : Nat) :
    updated_stuck_counter ⟨p, List.replicate 30 p, t, k⟩ = k + 1 := by
  simp only [updated_stuck_counter, updated_history_motionless]
  rw [show (List.replicate 30 p).headI = p by
    rw [List.replicate_succ]; rfl]
  have h1 : (30 : ℕ) ≤ (List.replicate 30 p).length := by simp
  have h2 : distance p p < 8 := by rw [distance_self]; norm_num
  rw [if_pos h1, if_pos h2]

theorem escape_step_motionless (p : Pos) (t : Option Pos) (k : Nat) (c s : ℝ) :
    escape_if_stuck ⟨p, List.replicate 30 p, t, k⟩ c s =
      if 10 < k + 1 then
        ⟨p, List.replicate 30 p,
         some (clamp_position (p.1 + c * 200, p.2 + s * 200)
           WINDOW_WIDTH WINDOW_HEIGHT), 0⟩
      else ⟨p, List.replicate 30 p, t, k + 1⟩ := by
  simp only [escape_if_stuck, updated_history_motionless,
    updated_stuck_counter_motionless]

theorem escape_iterate_motionless (p : Pos) (t : Option Pos) (c s : ℝ) :
    ∀ k : Nat, k ≤ 10 →
      (fun a => escape_if_stuck a c s)^[k] ⟨p, List.replicate 30 p, t, 0⟩ =
        ⟨p, List.replicate 30 p, t, k⟩ := by
  intro k
  induction k with
  | zero => intro _; rfl
  | succ n ih =>
    intro hn
    rw [Function.iterate_succ_apply', ih (by omega)]
    simp only [escape_step_motionless]
    rw [if_neg (by omega)]

/-- Claim C8: stuck escape.  (1) Whenever the history-updated stuck
counter exceeds 10, the routine sets as new target the point 200 units
out along the random bearing, clamped to the window — a target that is
always inside the world bounds — and resets the counter to zero.
(2) In particular, an agent held motionless with a full 30-sample
window receives exactly that in-bounds escape target after 11
consecutive stuck ticks, with its counter reset to zero. -/
theorem stuck_escape_assigns_target :
    (∀ (a : StuckState) (c s : ℝ), 10 < updated_stuck_counter a →
      escape_if_stuck a c s =
        { a with last_positions := updated_history a,
                 stuck_counter := 0,
                 target_position := some (clamp_position
                   (a.pos.1 + c * 200, a.pos.2 + s * 200)
                   WINDOW_WIDTH WINDOW_HEIGHT) } ∧
      in_bounds (clamp_position (a.pos.1 + c * 200, a.pos.2 + s * 200)
        WINDOW_WIDTH WINDOW_HEIGHT)) ∧
    (∀ (p : Pos) (t : Option Pos) (c s : ℝ),
      (fun a => escape_if_stuck a c s)^[11] ⟨p, List.replicate 30 p, t, 0⟩ =
        ⟨p, List.replicate 30 p,
         some (clamp_position (p.1 + c * 200, p.2 + s * 200)
           WINDOW_WIDTH WINDOW_HEIGHT), 0⟩ ∧
      in_bounds (clamp_position (p.1 + c * 200, p.2 + s * 200)
        WINDOW_WIDTH WINDOW_HEIGHT)) := by
  constructor
  · intro a c s h
    exact ⟨by simp only [escape_if_stuck, if_pos h],
      clamp_position_in_bounds _⟩
  · intro p t c s
    refine ⟨?_, clamp_position_in_bounds _⟩
    rw [show (11 : Nat) = 10 + 1 from rfl, Function.iterate_succ_apply',
      escape_iterate_motionless p t c s 10 (le_refl 10)]
    simp only [escape_step_motionless]
    rw [if_pos (by omega)]

/-- Claim C8 witness: the escape trigger at a concrete stuck agent. -/
theorem stuck_escape_assigns_target_witness :
    10 < updated_stuck_counter ⟨(100, 100), List.replicate 30 (100, 100),
        none, 10⟩ ∧
    (escape_if_stuck ⟨(100, 100), List.replicate 30 (100, 100), none, 10⟩
        1 0).target_position =
      some (clamp_position (100 + 1 * 200, 100 + 0 * 200)
        WINDOW_WIDTH WINDOW_HEIGHT) := by
  have hc : 10 < updated_stuck_counter
      ⟨(100, 100), List.replicate 30 (100, 100), none, 10⟩ := by
    rw [updated_stuck_counter_motionless]
    omega
  refine ⟨hc, ?_⟩
  rw [(stuck_escape_assigns_target.1
    ⟨(100, 100), List.replicate 30 (100, 100), none, 10⟩ 1 0 hc).1]

end

end OpShield
